import Mathlib

/-!
Verification development for the freeCodeCamp curriculum-db data loading
pipeline (packages/server/src/data).  The definitions below are a shallow
embedding of the TypeScript source: `types.ts` (data model), `normalizer.ts`,
`validators.ts`, `loader.ts`, `store.ts`, `provider.ts` and the pipeline
driver `initializeDataStore` in `index.ts`.  File I/O is modelled by an
explicit file-system environment `FS`; JavaScript `Map` objects are modelled
as insertion-ordered association lists with `Map.set` update semantics.
-/

namespace CurriculumDB

/-- Model of a raw JSON value inspected only via `typeof x === 'string'`:
either a string or some non-string value. -/
inductive JsVal where
  | str (s : String)
  | other
deriving DecidableEq, Repr

/-- The `typeof x === 'string'` test on an optional JSON field
(`undefined` is not a string). -/
def isStringValue : Option JsVal → Bool
  | some (JsVal.str _) => true
  | _ => false

/-! ## Raw JSON types (types.ts, layer 1) -/

/-- Raw challenge entry from a block file's `challengeOrder`. -/
structure RawChallenge where
  id : String
  title : String
deriving DecidableEq, Repr

/-- Raw module from a v9 superblock file (`chapters[].modules[]`). -/
structure RawModule where
  dashedName : String
  blocks : List String
  moduleType : Option String
  comingSoon : Option Bool
deriving DecidableEq, Repr

/-- Raw chapter from a v9 superblock file. -/
structure RawChapter where
  dashedName : String
  modules : List RawModule
  comingSoon : Option Bool
deriving DecidableEq, Repr

/-- Raw superblock file: legacy flat `blocks` list and/or v9 `chapters`.
Either field may be absent (`none`). -/
structure RawSuperblock where
  blocks : Option (List String)
  chapters : Option (List RawChapter)
deriving DecidableEq, Repr

/-- Raw required-resource entry: optional `src` (script URL) and `link`
(stylesheet URL) fields, each an arbitrary JSON value when present. -/
structure RawRequiredResource where
  src : Option JsVal
  link : Option JsVal
deriving DecidableEq, Repr

/-- Raw block file.  `blockLayout` and `blockLabel` are raw kebab-case
strings (validated against fixed literal lists before normalization). -/
structure RawBlock where
  name : String
  dashedName : String
  helpCategory : String
  challengeOrder : List RawChallenge
  blockLayout : String
  blockLabel : Option String
  isUpcomingChange : Bool
  usesMultifileEditor : Option Bool
  hasEditableBoundaries : Option Bool
  disableLoopProtectTests : Option Bool
  disableLoopProtectPreview : Option Bool
  required : Option (List RawRequiredResource)
  template : Option JsVal
deriving DecidableEq, Repr

/-- Raw curriculum.json manifest. -/
structure RawCurriculum where
  superblocks : List String
  certifications : List String
deriving DecidableEq, Repr

/-! ## Normalized enums and types (types.ts, layer 2) -/

/-- Normalized block layout enumeration. -/
inductive BlockLayout where
  | LINK | CHALLENGE_LIST | CHALLENGE_GRID | DIALOGUE_GRID | PROJECT_LIST
  | LEGACY_CHALLENGE_LIST | LEGACY_CHALLENGE_GRID | LEGACY_LINK
deriving DecidableEq, Repr

/-- Normalized block label enumeration. -/
inductive BlockLabel where
  | LECTURE | LAB | WORKSHOP | REVIEW | QUIZ | EXAM | WARM_UP | PRACTICE | LEARN
deriving DecidableEq, Repr

/-- Normalized challenge metadata with back-reference to the owning block. -/
structure ChallengeMetadata where
  id : String
  title : String
  blockDashedName : String
deriving DecidableEq, Repr

/-- Normalized module with explicit parent references. -/
structure ModuleData where
  dashedName : String
  blocks : List String
  moduleType : Option String
  comingSoon : Bool
  chapterDashedName : String
  superblockDashedName : String
deriving DecidableEq, Repr

/-- Normalized chapter with explicit parent reference. -/
structure ChapterData where
  dashedName : String
  modules : List ModuleData
  comingSoon : Bool
  superblockDashedName : String
deriving DecidableEq, Repr

/-- Normalized superblock: flattened ordered block list plus the optional
richer chapter structure. -/
structure SuperblockData where
  dashedName : String
  blocks : List String
  chapters : List ChapterData
  isCertification : Bool
deriving DecidableEq, Repr

/-- Normalized required resource (explicit `none` markers). -/
structure RequiredResource where
  src : Option JsVal
  link : Option JsVal
deriving DecidableEq, Repr

/-- Normalized block with enum values, explicit `none` markers and the list
of parent superblock identifiers (v9 allows sharing). -/
structure BlockData where
  name : String
  dashedName : String
  helpCategory : String
  challenges : List ChallengeMetadata
  blockLayout : Option BlockLayout
  blockLabel : Option BlockLabel
  isUpcomingChange : Bool
  usesMultifileEditor : Option Bool
  hasEditableBoundaries : Option Bool
  disableLoopProtectTests : Option Bool
  disableLoopProtectPreview : Option Bool
  required : Option (List RequiredResource)
  template : Option JsVal
  superblockDashedNames : List String
deriving DecidableEq, Repr

/-- Normalized curriculum singleton. -/
structure CurriculumData where
  superblocks : List String
  certifications : List String
deriving DecidableEq, Repr

/-- Typed validation error: message, offending file path, optional field. -/
structure DataValidationError where
  message : String
  filePath : String
  field : Option String
deriving DecidableEq, Repr

/-- The `Result<T, E>` discriminated union from types.ts. -/
inductive Result (α ε : Type) where
  | success (data : α)
  | failure (error : ε)
deriving DecidableEq, Repr

/-- Whether a result is a failure. -/
def isFailure {α ε : Type} : Result α ε → Bool
  | Result.failure _ => true
  | Result.success _ => false

/-! ## JavaScript Map model

JS `Map` objects preserve insertion order; `set` on an existing key updates
the value in place (keeping the key's original position) and on a new key
appends at the end.  We model them as association lists. -/

/-- JS `Map.get`: value of the first (unique) matching key, if any. -/
def jsGet {α : Type} : List (String × α) → String → Option α
  | [], _ => none
  | (k, v) :: rest, key => if k = key then some v else jsGet rest key

/-- JS `Map.set`: update in place if the key exists, else append at end. -/
def jsSet {α : Type} : List (String × α) → String → α → List (String × α)
  | [], key, v => [(key, v)]
  | (k, w) :: rest, key, v =>
      if k = key then (k, v) :: rest else (k, w) :: jsSet rest key v

/-- JS `Map.has`. -/
def jsHas {α : Type} (m : List (String × α)) (key : String) : Bool :=
  (jsGet m key).isSome

/-- The `DataStore` container (store.ts): curriculum singleton plus three
lookup tables keyed by identifier. -/
structure DataStore where
  curriculum : CurriculumData
  superblocks : List (String × SuperblockData)
  blocks : List (String × BlockData)
  challenges : List (String × ChallengeMetadata)
deriving DecidableEq, Repr

/-! ## Normalizer (normalizer.ts) -/

/-- Enum mapping table `BLOCK_LAYOUT_MAPPING` (kebab-case to canonical). -/
def blockLayoutMapping : String → Option BlockLayout
  | "link" => some BlockLayout.LINK
  | "challenge-list" => some BlockLayout.CHALLENGE_LIST
  | "challenge-grid" => some BlockLayout.CHALLENGE_GRID
  | "dialogue-grid" => some BlockLayout.DIALOGUE_GRID
  | "project-list" => some BlockLayout.PROJECT_LIST
  | "legacy-challenge-list" => some BlockLayout.LEGACY_CHALLENGE_LIST
  | "legacy-challenge-grid" => some BlockLayout.LEGACY_CHALLENGE_GRID
  | "legacy-link" => some BlockLayout.LEGACY_LINK
  | _ => none

/-- Enum mapping table `BLOCK_LABEL_MAPPING` (kebab-case to canonical). -/
def blockLabelMapping : String → Option BlockLabel
  | "lecture" => some BlockLabel.LECTURE
  | "lab" => some BlockLabel.LAB
  | "workshop" => some BlockLabel.WORKSHOP
  | "review" => some BlockLabel.REVIEW
  | "quiz" => some BlockLabel.QUIZ
  | "exam" => some BlockLabel.EXAM
  | "warm-up" => some BlockLabel.WARM_UP
  | "practice" => some BlockLabel.PRACTICE
  | "learn" => some BlockLabel.LEARN
  | _ => none

/-- Normalize block layout via the mapping table (`undefined`, i.e. `none`,
for a raw value outside the table — the validator rejects those first). -/
def normalizeBlockLayout (raw : String) : Option BlockLayout :=
  blockLayoutMapping raw

/-- Normalize optional block label: explicit `none` when absent, else the
mapping table. -/
def normalizeBlockLabel (raw : Option String) : Option BlockLabel :=
  match raw with
  | some r => blockLabelMapping r
  | none => none

/-- Normalize the optional required-resources array (explicit `none` when
absent, missing sub-fields become explicit `none`). -/
def normalizeRequiredResources (raw : Option (List RawRequiredResource)) :
    Option (List RequiredResource) :=
  match raw with
  | none => none
  | some resources => some (resources.map (fun r => ⟨r.src, r.link⟩))

/-- Normalize curriculum data (structure preserved). -/
def normalizeCurriculum (raw : RawCurriculum) : CurriculumData :=
  ⟨raw.superblocks, raw.certifications⟩

/-- Normalize a module, attaching parent chapter and superblock ids. -/
def normalizeModule (raw : RawModule) (chapterDashedName : String)
    (superblockDashedName : String) : ModuleData :=
  { dashedName := raw.dashedName
    blocks := raw.blocks
    moduleType := raw.moduleType
    comingSoon := raw.comingSoon.getD false
    chapterDashedName := chapterDashedName
    superblockDashedName := superblockDashedName }

/-- Normalize a chapter, attaching the parent superblock id. -/
def normalizeChapter (raw : RawChapter) (superblockDashedName : String) :
    ChapterData :=
  { dashedName := raw.dashedName
    modules := raw.modules.map
      (fun m => normalizeModule m raw.dashedName superblockDashedName)
    comingSoon := raw.comingSoon.getD false
    superblockDashedName := superblockDashedName }

/-- Normalize a superblock.  If `chapters` is present (a present-but-empty
array is truthy in JS, hence takes this branch) the flattened block list is
gathered from chapters and modules and the flat list is not consulted;
otherwise the flat list (when present) is used directly. -/
def normalizeSuperblock (dashedName : String) (raw : RawSuperblock)
    (certifications : List String) : SuperblockData :=
  match raw.chapters with
  | some rawChapters =>
      let chapters := rawChapters.map (fun ch => normalizeChapter ch dashedName)
      let flattenedBlocks :=
        chapters.flatMap (fun ch => ch.modules.flatMap (fun m => m.blocks))
      { dashedName := dashedName
        blocks := flattenedBlocks
        chapters := chapters
        isCertification := certifications.contains dashedName }
  | none =>
      match raw.blocks with
      | some bs =>
          { dashedName := dashedName
            blocks := bs
            chapters := []
            isCertification := certifications.contains dashedName }
      | none =>
          { dashedName := dashedName
            blocks := []
            chapters := []
            isCertification := certifications.contains dashedName }

/-- Normalize challenge metadata, attaching the parent block id. -/
def normalizeChallengeMetadata (raw : RawChallenge) (blockDashedName : String) :
    ChallengeMetadata :=
  ⟨raw.id, raw.title, blockDashedName⟩

/-- Normalize a block with enum conversion, explicit `none` markers and the
list of parent superblock identifiers. -/
def normalizeBlock (dashedName : String) (raw : RawBlock)
    (superblockDashedNames : List String) : BlockData :=
  { name := raw.name
    dashedName := dashedName
    helpCategory := raw.helpCategory
    challenges := raw.challengeOrder.map
      (fun ch => normalizeChallengeMetadata ch dashedName)
    blockLayout := normalizeBlockLayout raw.blockLayout
    blockLabel := normalizeBlockLabel raw.blockLabel
    isUpcomingChange := raw.isUpcomingChange
    usesMultifileEditor := raw.usesMultifileEditor
    hasEditableBoundaries := raw.hasEditableBoundaries
    disableLoopProtectTests := raw.disableLoopProtectTests
    disableLoopProtectPreview := raw.disableLoopProtectPreview
    required := normalizeRequiredResources raw.required
    template := raw.template
    superblockDashedNames := superblockDashedNames }

/-! ## Validators (validators.ts) -/

/-- The fixed `VALID_BLOCK_LAYOUTS` literal list. -/
def validBlockLayouts : List String :=
  ["link", "challenge-list", "challenge-grid", "dialogue-grid",
   "project-list", "legacy-challenge-list", "legacy-challenge-grid",
   "legacy-link"]

/-- The fixed `VALID_BLOCK_LABELS` literal list. -/
def validBlockLabels : List String :=
  ["lecture", "lab", "workshop", "review", "quiz", "exam", "warm-up",
   "practice", "learn"]

/-- Curriculum-level reference validation: intentionally permissive, always
succeeds. -/
def validateCurriculumReferences : Result Unit DataValidationError :=
  Result.success ()

/-- All block identifiers referenced by a raw superblock: the flat list (when
present) followed by every module's list under chapters (when present).
This collection appears verbatim both in the pipeline driver's phase 3 and
in `validateSuperblockReferences`. -/
def superblockRefs (sb : RawSuperblock) : List String :=
  (match sb.blocks with
   | some bs => bs
   | none => []) ++
  (match sb.chapters with
   | some chapters =>
       chapters.flatMap (fun ch => ch.modules.flatMap (fun m => m.blocks))
   | none => [])

/-- The reference error produced when a superblock names a missing block. -/
def refError (blockName sbName : String) : DataValidationError :=
  ⟨"Block \"" ++ blockName ++ "\" referenced in superblock \"" ++ sbName ++
     "\" but file not found",
   "superblocks/" ++ sbName ++ ".json",
   some "blocks"⟩

/-- Scan a superblock's references for the first one missing from the loaded
block map. -/
def findMissingRef (sbName : String) (refs : List String)
    (blocks : List (String × RawBlock)) : Option DataValidationError :=
  match refs with
  | [] => none
  | b :: rest =>
      if jsHas blocks b then findMissingRef sbName rest blocks
      else some (refError b sbName)

/-- Validate that every block referenced by any superblock (flat or nested)
exists in the loaded block map; fails on the first missing reference. -/
def validateSuperblockReferences (superblocks : List (String × RawSuperblock))
    (blocks : List (String × RawBlock)) : Result Unit DataValidationError :=
  match superblocks with
  | [] => Result.success ()
  | (sbName, sb) :: rest =>
      match findMissingRef sbName (superblockRefs sb) blocks with
      | some e => Result.failure e
      | none => validateSuperblockReferences rest blocks

/-- Scan required-resource entries from index `i`: an entry with neither a
string `src` nor a string `link` produces the indexed error. -/
def checkRequiredEntries (resources : List RawRequiredResource) (i : Nat)
    (blockPath : String) : Option DataValidationError :=
  match resources with
  | [] => none
  | r :: rest =>
      if !isStringValue r.src && !isStringValue r.link then
        some ⟨"required[" ++ toString i ++
                "] must have either \"src\" or \"link\" field of type string",
              blockPath,
              some ("required[" ++ toString i ++ "]")⟩
      else checkRequiredEntries rest (i + 1) blockPath

/-- Outcome of the required-resources scan when the field is present
(`none` when the field is absent or every entry passes). -/
def requiredCheckResult (block : RawBlock) (blockPath : String) :
    Option DataValidationError :=
  match block.required with
  | some resources => checkRequiredEntries resources 0 blockPath
  | none => none

/-- Required-resources and template checks of `validateBlockEnums` (the part
after the layout and label checks). -/
def validateRequiredAndTemplate (block : RawBlock) (blockPath : String) :
    Result Unit DataValidationError :=
  match requiredCheckResult block blockPath with
  | some e => Result.failure e
  | none =>
      match block.template with
      | some JsVal.other =>
          Result.failure
            ⟨"template field must be a string", blockPath, some "template"⟩
      | _ => Result.success ()

/-- Validate a block's enum values and the shape of `required`/`template`. -/
def validateBlockEnums (block : RawBlock) (blockPath : String) :
    Result Unit DataValidationError :=
  if !(validBlockLayouts.contains block.blockLayout) then
    Result.failure
      ⟨"Invalid blockLayout value: \"" ++ block.blockLayout ++
         "\". Valid values: " ++ String.intercalate ", " validBlockLayouts,
       blockPath, some "blockLayout"⟩
  else
    match block.blockLabel with
    | some lb =>
        if !(validBlockLabels.contains lb) then
          Result.failure
            ⟨"Invalid blockLabel value: \"" ++ lb ++ "\". Valid values: " ++
               String.intercalate ", " validBlockLabels,
             blockPath, some "blockLabel"⟩
        else validateRequiredAndTemplate block blockPath
    | none => validateRequiredAndTemplate block blockPath

/-- Scan challenge entries from index `i` for a missing (empty) id or
title. -/
def checkChallenges (challenges : List RawChallenge) (i : Nat)
    (blockPath : String) : Option DataValidationError :=
  match challenges with
  | [] => none
  | ch :: rest =>
      if ch.id = "" then
        some ⟨"Challenge at index " ++ toString i ++
                " is missing required \"id\" field",
              blockPath, some ("challengeOrder[" ++ toString i ++ "].id")⟩
      else if ch.title = "" then
        some ⟨"Challenge at index " ++ toString i ++
                " is missing required \"title\" field",
              blockPath, some ("challengeOrder[" ++ toString i ++ "].title")⟩
      else checkChallenges rest (i + 1) blockPath

/-- Validate a block's challenge list: non-empty, every entry with non-empty
id and title; fails at the first violating index. -/
def validateChallengeStructure (challenges : List RawChallenge)
    (blockPath : String) : Result Unit DataValidationError :=
  if challenges.isEmpty then
    Result.failure
      ⟨"challengeOrder array must not be empty", blockPath,
       some "challengeOrder"⟩
  else
    match checkChallenges challenges 0 blockPath with
    | some e => Result.failure e
    | none => Result.success ()

/-! ## File reader (loader.ts)

The file system is an explicit environment: each lookup either yields the
parsed raw structure or fails; on failure the environment supplies the
underlying I/O or parse error message. -/

/-- File-system environment for the load phase. -/
structure FS where
  curriculumFile : Option RawCurriculum
  curriculumReadError : String
  superblockFiles : String → Option RawSuperblock
  superblockReadError : String → String
  blockFiles : String → Option RawBlock
  blockReadError : String → String

/-- Load and parse curriculum.json. -/
def loadCurriculumFile (dataPath : String) (fs : FS) :
    Result RawCurriculum DataValidationError :=
  match fs.curriculumFile with
  | some data => Result.success data
  | none =>
      Result.failure
        ⟨"Failed to load curriculum.json: " ++ fs.curriculumReadError,
         dataPath ++ "/curriculum.json", none⟩

/-- Load and parse a single superblock file. -/
def loadSuperblockFile (dashedName : String) (dataPath : String) (fs : FS) :
    Result RawSuperblock DataValidationError :=
  match fs.superblockFiles dashedName with
  | some data => Result.success data
  | none =>
      Result.failure
        ⟨"Failed to load superblock \"" ++ dashedName ++ "\": " ++
           fs.superblockReadError dashedName,
         dataPath ++ "/superblocks/" ++ dashedName ++ ".json", none⟩

/-- Load and parse a single block file. -/
def loadBlockFile (dashedName : String) (dataPath : String) (fs : FS) :
    Result RawBlock DataValidationError :=
  match fs.blockFiles dashedName with
  | some data => Result.success data
  | none =>
      Result.failure
        ⟨"Failed to load block \"" ++ dashedName ++ "\": " ++
           fs.blockReadError dashedName,
         dataPath ++ "/blocks/" ++ dashedName ++ ".json", none⟩

/-- First failure among a list of results, in order. -/
def firstFailure {α ε : Type} : List (Result α ε) → Option ε
  | [] => none
  | Result.success _ :: rest => firstFailure rest
  | Result.failure e :: _ => some e

/-- Build the name-keyed map from parallel lists of names and (all
successful) results; a falsy (empty) name is skipped, as in the source's
`if (name && result && result.success)` guard. -/
def buildNameMap {α : Type} (names : List String)
    (results : List (Result α DataValidationError)) : List (String × α) :=
  (names.zip results).foldl
    (fun acc p =>
      match p.2 with
      | Result.success d => if p.1 ≠ "" then jsSet acc p.1 d else acc
      | Result.failure _ => acc)
    []

/-- Bulk superblock load: all single loads, fail-fast on the first failure
in input order, otherwise a map keyed by name. -/
def loadAllSuperblocks (superblockNames : List String) (dataPath : String)
    (fs : FS) : Result (List (String × RawSuperblock)) DataValidationError :=
  match firstFailure
      (superblockNames.map (fun n => loadSuperblockFile n dataPath fs)) with
  | some e => Result.failure e
  | none =>
      Result.success (buildNameMap superblockNames
        (superblockNames.map (fun n => loadSuperblockFile n dataPath fs)))

/-- Bulk block load: all single loads, fail-fast on the first failure in
input order, otherwise a map keyed by name. -/
def loadAllBlocks (blockNames : List String) (dataPath : String) (fs : FS) :
    Result (List (String × RawBlock)) DataValidationError :=
  match firstFailure
      (blockNames.map (fun n => loadBlockFile n dataPath fs)) with
  | some e => Result.failure e
  | none =>
      Result.success (buildNameMap blockNames
        (blockNames.map (fun n => loadBlockFile n dataPath fs)))

/-! ## Pipeline driver (index.ts `initializeDataStore`) -/

/-- Phase 3 of the driver: collect every block name referenced by every
loaded superblock, flat list and chapters/modules alike, in map order,
without de-duplication. -/
def collectAllBlockNames (superblocks : List (String × RawSuperblock)) :
    List String :=
  superblocks.foldl (fun acc p => acc ++ superblockRefs p.2) []

/-- Raw data assembled by the load phases (1-4). -/
structure LoadedRaw where
  rawCurriculum : RawCurriculum
  rawSuperblocks : List (String × RawSuperblock)
  rawBlocks : List (String × RawBlock)
deriving DecidableEq, Repr

/-- Phases 1-4: load curriculum, bulk-load superblocks, collect block names,
bulk-load blocks. -/
def loadPhase (dataPath : String) (fs : FS) :
    Result LoadedRaw DataValidationError :=
  match loadCurriculumFile dataPath fs with
  | Result.failure e => Result.failure e
  | Result.success rawCurriculum =>
      match loadAllSuperblocks rawCurriculum.superblocks dataPath fs with
      | Result.failure e => Result.failure e
      | Result.success rawSuperblocks =>
          match loadAllBlocks (collectAllBlockNames rawSuperblocks) dataPath fs with
          | Result.failure e => Result.failure e
          | Result.success rawBlocks =>
              Result.success ⟨rawCurriculum, rawSuperblocks, rawBlocks⟩

/-- Phase 6 loop: per-block enum and challenge-structure validation, in map
order, fail-fast. -/
def validateAllBlockEntries (dataPath : String) :
    List (String × RawBlock) → Result Unit DataValidationError
  | [] => Result.success ()
  | (blockName, block) :: rest =>
      let blockPath := dataPath ++ "/blocks/" ++ blockName ++ ".json"
      match validateBlockEnums block blockPath with
      | Result.failure e => Result.failure e
      | Result.success _ =>
          match validateChallengeStructure block.challengeOrder blockPath with
          | Result.failure e => Result.failure e
          | Result.success _ => validateAllBlockEntries dataPath rest

/-- Phases 5-6: curriculum check (no-op), superblock-reference check,
per-block enum and challenge-shape checks. -/
def validatePhase (dataPath : String) (lr : LoadedRaw) :
    Result Unit DataValidationError :=
  match validateCurriculumReferences with
  | Result.failure e => Result.failure e
  | Result.success _ =>
      match validateSuperblockReferences lr.rawSuperblocks lr.rawBlocks with
      | Result.failure e => Result.failure e
      | Result.success _ => validateAllBlockEntries dataPath lr.rawBlocks

/-- One step of the reverse-index construction: record `sbName` as a parent
of `blockName` (the source initializes a missing entry to `[]` and then
pushes; `Map.set` on a missing key appends the entry at the end). -/
def pushParent (acc : List (String × List String)) (blockName sbName : String) :
    List (String × List String) :=
  match jsGet acc blockName with
  | none => jsSet acc blockName [sbName]
  | some l => jsSet acc blockName (l ++ [sbName])

/-- Phase 9: build the block-to-superblocks reverse index by walking the
normalized superblocks in map order and their flattened block lists in
order. -/
def buildReverseIndex (superblocks : List (String × SuperblockData)) :
    List (String × List String) :=
  superblocks.foldl
    (fun acc p => p.2.blocks.foldl (fun a b => pushParent a b p.1) acc)
    []

/-- The message of the exception thrown for a block without parents. -/
def zeroParentMessage (name : String) : String :=
  "Block \"" ++ name ++ "\" has no parent superblock"

/-- Phase 10: normalize blocks in map order; a block whose reverse-index
entry is missing or empty throws (modelled as `Except.error`). -/
def normalizeBlocksPhase (entries : List (String × RawBlock))
    (rev : List (String × List String)) :
    Except String (List (String × BlockData)) :=
  match entries with
  | [] => Except.ok []
  | (name, raw) :: rest =>
      match jsGet rev name with
      | none => Except.error (zeroParentMessage name)
      | some superblockNames =>
          if superblockNames.isEmpty then
            Except.error (zeroParentMessage name)
          else
            match normalizeBlocksPhase rest rev with
            | Except.error m => Except.error m
            | Except.ok bs =>
                Except.ok ((name, normalizeBlock name raw superblockNames) :: bs)

/-- Phase 11: flatten every block's challenges into an id-keyed map (later
entries overwrite earlier ones on collision). -/
def buildChallengeMap (blocks : List (String × BlockData)) :
    List (String × ChallengeMetadata) :=
  (blocks.flatMap (fun p => p.2.challenges.map (fun ch => (ch.id, ch)))).foldl
    (fun acc q => jsSet acc q.1 q.2) []

/-- Phase 12 (store.ts): assemble the read-only store. -/
def buildDataStore (curriculum : CurriculumData)
    (superblocks : List (String × SuperblockData))
    (blocks : List (String × BlockData))
    (challenges : List (String × ChallengeMetadata)) : DataStore :=
  ⟨curriculum, superblocks, blocks, challenges⟩

/-- Phases 7-12: normalization and store assembly.  The only error channel
here is the thrown zero-parent exception from phase 10. -/
def normalizeBuildPhase (lr : LoadedRaw) : Except String DataStore :=
  let curriculum := normalizeCurriculum lr.rawCurriculum
  let superblocks := lr.rawSuperblocks.map
    (fun p => (p.1, normalizeSuperblock p.1 p.2 curriculum.certifications))
  let blockToSuperblocks := buildReverseIndex superblocks
  match normalizeBlocksPhase lr.rawBlocks blockToSuperblocks with
  | Except.error m => Except.error m
  | Except.ok blocks =>
      Except.ok
        (buildDataStore curriculum superblocks blocks (buildChallengeMap blocks))

/-- Observable outcome of the pipeline: either a thrown exception (zero
parents) or the returned typed `Result`. -/
inductive PipelineOutcome where
  | thrown (message : String)
  | returned (r : Result DataStore DataValidationError)
deriving DecidableEq, Repr

/-- The full pipeline driver `initializeDataStore`. -/
def initializeDataStore (dataPath : String) (fs : FS) : PipelineOutcome :=
  match loadPhase dataPath fs with
  | Result.failure e => PipelineOutcome.returned (Result.failure e)
  | Result.success lr =>
      match validatePhase dataPath lr with
      | Result.failure e => PipelineOutcome.returned (Result.failure e)
      | Result.success _ =>
          match normalizeBuildPhase lr with
          | Except.error m => PipelineOutcome.thrown m
          | Except.ok store =>
              PipelineOutcome.returned (Result.success store)

/-! ## Data provider (provider.ts) -/

/-- The in-memory data provider wrapping the store. -/
structure InMemoryDataProvider where
  store : DataStore
deriving DecidableEq, Repr

/-- Always returns the curriculum singleton. -/
def InMemoryDataProvider.getCurriculum (p : InMemoryDataProvider) :
    CurriculumData :=
  p.store.curriculum

/-- Superblock lookup; `none` models the `null` not-found sentinel. -/
def InMemoryDataProvider.getSuperblock (p : InMemoryDataProvider)
    (dashedName : String) : Option SuperblockData :=
  jsGet p.store.superblocks dashedName

/-- Block lookup; `none` models the `null` not-found sentinel. -/
def InMemoryDataProvider.getBlock (p : InMemoryDataProvider)
    (dashedName : String) : Option BlockData :=
  jsGet p.store.blocks dashedName

/-- Challenge lookup; `none` models the `null` not-found sentinel. -/
def InMemoryDataProvider.getChallenge (p : InMemoryDataProvider)
    (id : String) : Option ChallengeMetadata :=
  jsGet p.store.challenges id

/-! ## Derived characterizations used in theorem statements -/

/-- Forward references of a normalized superblock map: every pair
(superblock id, block id) with the block in that superblock's flattened
list, in map order and with multiplicity. -/
def forwardPairs (superblocks : List (String × SuperblockData)) :
    List (String × String) :=
  superblocks.flatMap (fun p => p.2.blocks.map (fun b => (p.1, b)))

/-- Superblock ids paired with `name`, in order and with multiplicity. -/
def parentsOfPairs : List (String × String) → String → List String
  | [], _ => []
  | (s, b) :: rest, name =>
      if b = name then s :: parentsOfPairs rest name
      else parentsOfPairs rest name

/-- Expected parent list of a block: superblocks whose flattened list
contains it, in discovery order and with multiplicity. -/
def parentsList (superblocks : List (String × SuperblockData))
    (name : String) : List String :=
  parentsOfPairs (forwardPairs superblocks) name

/-- Whether the reverse index has no parent for `name` (absent or empty). -/
def parentsMissing (rev : List (String × List String)) (name : String) :
    Bool :=
  match jsGet rev name with
  | none => true
  | some l => l.isEmpty

/-- Whether `sub` is a leading segment of `l`. -/
def charsEqPre : List Char → List Char → Bool
  | [], _ => true
  | _ :: _, [] => false
  | a :: as, b :: bs => a = b && charsEqPre as bs

/-- Whether `sub` occurs contiguously somewhere in `l`. -/
def charsScan (sub : List Char) : List Char → Bool
  | [] => charsEqPre sub []
  | c :: t => charsEqPre sub (c :: t) || charsScan sub t

/-- Substring test on strings (used to state what an error message
contains). -/
def hasSubstr (s sub : String) : Bool :=
  charsScan sub.data s.data

/-! ## Concrete inputs for witnesses and counterexamples -/

/-- A block file that passes every validation check. -/
def validRawBlock (n : String) : RawBlock :=
  { name := n
    dashedName := n
    helpCategory := "HTML-CSS"
    challengeOrder := [⟨"id-" ++ n, "title-" ++ n⟩]
    blockLayout := "link"
    blockLabel := none
    isUpcomingChange := false
    usesMultifileEditor := none
    hasEditableBoundaries := none
    disableLoopProtectTests := none
    disableLoopProtectPreview := none
    required := none
    template := none }

/-- Two legacy superblocks sharing the block "shared"; "sb-a" also lists
"only-a". -/
def fsC1 : FS :=
  { curriculumFile := some ⟨["sb-a", "sb-b"], ["sb-a"]⟩
    curriculumReadError := "ENOENT"
    superblockFiles := fun n =>
      if n = "sb-a" then some ⟨some ["shared", "only-a"], none⟩
      else if n = "sb-b" then some ⟨some ["shared"], none⟩
      else none
    superblockReadError := fun _ => "ENOENT"
    blockFiles := fun n =>
      if n = "shared" ∨ n = "only-a" then some (validRawBlock n) else none
    blockReadError := fun _ => "ENOENT" }

/-- One superblock "sb-a" referencing the block "ghost-block", for which no
block file exists. -/
def fsC2 : FS :=
  { curriculumFile := some ⟨["sb-a"], []⟩
    curriculumReadError := "ENOENT"
    superblockFiles := fun n =>
      if n = "sb-a" then some ⟨some ["ghost-block"], none⟩ else none
    superblockReadError := fun _ => "ENOENT"
    blockFiles := fun _ => none
    blockReadError := fun _ => "ENOENT" }

/-- Two loaded superblocks both referencing the block "shared". -/
def sbsC3 : List (String × RawSuperblock) :=
  [("sb-a", ⟨some ["shared"], none⟩), ("sb-b", ⟨some ["shared"], none⟩)]

/-- A file system with a single valid block file "shared". -/
def fsC3 : FS :=
  { curriculumFile := some ⟨["sb-a", "sb-b"], []⟩
    curriculumReadError := "ENOENT"
    superblockFiles := fun n =>
      if n = "sb-a" ∨ n = "sb-b" then some ⟨some ["shared"], none⟩ else none
    superblockReadError := fun _ => "ENOENT"
    blockFiles := fun n => if n = "shared" then some (validRawBlock n) else none
    blockReadError := fun _ => "ENOENT" }

/-- A required-resource entry carrying BOTH a string `src` and a string
`link`. -/
def resC4 : RawRequiredResource :=
  ⟨some (JsVal.str "script.js"), some (JsVal.str "style.css")⟩

/-- A block whose only required-resource entry has both `src` and `link`. -/
def blockC4 : RawBlock :=
  { validRawBlock "c4-block" with required := some [resC4] }

/-- A block whose only required-resource entry has neither `src` nor
`link` as a string. -/
def blockC4neither : RawBlock :=
  { validRawBlock "c4-block" with required := some [⟨none, some JsVal.other⟩] }

/-- A v9 superblock with two chapters and three modules. -/
def rawSbC5 : RawSuperblock :=
  { blocks := none
    chapters := some
      [⟨"ch1", [⟨"m1", ["b1", "b2"], none, none⟩,
                ⟨"m2", ["b2"], some "review", none⟩], none⟩,
       ⟨"ch2", [⟨"m3", ["b3"], none, some true⟩], some true⟩] }

/-- A legacy superblock with a flat block list. -/
def rawSbC5flat : RawSuperblock :=
  { blocks := some ["b1", "b2", "b1"], chapters := none }

/-- A file system whose block "bad-block" is missing while "good-block"
exists, for the fail-fast witness. -/
def fsC6 : FS :=
  { curriculumFile := some ⟨["sb-ok"], []⟩
    curriculumReadError := "ENOENT"
    superblockFiles := fun n =>
      if n = "sb-ok" then some ⟨some ["good-block"], none⟩ else none
    superblockReadError := fun _ => "EACCES"
    blockFiles := fun n =>
      if n = "good-block" then some (validRawBlock n) else none
    blockReadError := fun _ => "ENOENT" }

/-- A raw superblock carrying both shapes: flat list naming "orphan-c7"
and a chapter/module structure naming "kept-c7". -/
def sbC7raw : RawSuperblock :=
  ⟨some ["orphan-c7"], some [⟨"ch1", [⟨"m1", ["kept-c7"], none, none⟩], none⟩]⟩

/-- A file system whose single superblock is `sbC7raw`, so that the block
named only in the flat list ends with zero parents and phase 10 throws. -/
def fsC7 : FS :=
  { curriculumFile := some ⟨["sb-x"], []⟩
    curriculumReadError := "ENOENT"
    superblockFiles := fun n => if n = "sb-x" then some sbC7raw else none
    superblockReadError := fun _ => "ENOENT"
    blockFiles := fun n =>
      if n = "orphan-c7" ∨ n = "kept-c7" then some (validRawBlock n) else none
    blockReadError := fun _ => "ENOENT" }

/-- The raw data the load phase assembles on `fsC7`. -/
def lrC7 : LoadedRaw :=
  ⟨⟨["sb-x"], []⟩, [("sb-x", sbC7raw)],
   [("orphan-c7", validRawBlock "orphan-c7"),
    ("kept-c7", validRawBlock "kept-c7")]⟩

/-- A tiny store and provider for the lookup witness. -/
def providerC9 : InMemoryDataProvider :=
  ⟨⟨⟨["sb-a"], []⟩,
    [("sb-a", ⟨"sb-a", ["b1"], [], false⟩)],
    [("b1", normalizeBlock "b1" (validRawBlock "b1") ["sb-a"])],
    [("ch-1", ⟨"ch-1", "t", "b1"⟩)]⟩⟩

/-- A raw superblock carrying both shapes: flat list naming "orphan-c10"
and a chapter/module structure naming "kept-c10". -/
def sbC10raw : RawSuperblock :=
  ⟨some ["orphan-c10"],
   some [⟨"ch1", [⟨"m1", ["kept-c10"], none, none⟩], none⟩]⟩

/-- A file system whose single superblock is `sbC10raw`: the flat-only
block loads and validates but ends with zero parents. -/
def fsC10 : FS :=
  { curriculumFile := some ⟨["sb-x"], []⟩
    curriculumReadError := "ENOENT"
    superblockFiles := fun n => if n = "sb-x" then some sbC10raw else none
    superblockReadError := fun _ => "ENOENT"
    blockFiles := fun n =>
      if n = "orphan-c10" ∨ n = "kept-c10" then some (validRawBlock n) else none
    blockReadError := fun _ => "ENOENT" }

/-! ## Helper lemmas -/

theorem jsGet_jsSet_self {α : Type} (m : List (String × α)) (k : String)
    (v : α) : jsGet (jsSet m k v) k = some v := by
  induction m with
  | nil => simp [jsGet, jsSet]
  | cons p rest ih =>
      obtain ⟨a, w⟩ := p
      by_cases h : a = k <;> simp [jsGet, jsSet, h, ih]

theorem jsGet_jsSet_ne {α : Type} (m : List (String × α)) (k k' : String)
    (v : α) (h : k ≠ k') : jsGet (jsSet m k v) k' = jsGet m k' := by
  induction m with
  | nil => simp [jsGet, jsSet, h]
  | cons p rest ih =>
      obtain ⟨a, w⟩ := p
      by_cases ha : a = k
      · subst ha; simp [jsGet, jsSet, h]
      · simp [jsGet, jsSet, ha, ih]

theorem jsGet_eq_none_of_not_mem {α : Type} (m : List (String × α))
    (k : String) (h : k ∉ m.map Prod.fst) : jsGet m k = none := by
  induction m with
  | nil => rfl
  | cons p rest ih =>
      obtain ⟨a, w⟩ := p
      simp only [List.map_cons, List.mem_cons] at h
      push_neg at h
      have ha : a ≠ k := fun hc => h.1 hc.symm
      simp [jsGet, ha, ih h.2]

theorem keys_jsSet {α : Type} (m : List (String × α)) (k : String) (v : α) :
    (jsSet m k v).map Prod.fst =
      if k ∈ m.map Prod.fst then m.map Prod.fst
      else m.map Prod.fst ++ [k] := by
  induction m with
  | nil => simp [jsSet]
  | cons p rest ih =>
      obtain ⟨a, w⟩ := p
      by_cases ha : a = k
      · subst ha; simp [jsSet]
      · have hka : ¬(k = a) := fun hc => ha hc.symm
        by_cases hk : k ∈ rest.map Prod.fst <;>
          simp [jsSet, ha, hka, hk, ih]

theorem keys_jsSet_nodup {α : Type} (m : List (String × α)) (k : String)
    (v : α) (h : (m.map Prod.fst).Nodup) :
    ((jsSet m k v).map Prod.fst).Nodup := by
  rw [keys_jsSet]
  by_cases hk : k ∈ m.map Prod.fst
  · simpa [hk]
  · simpa [hk, List.nodup_append] using h

theorem jsGet_pushParent_self (acc : List (String × List String))
    (b s : String) :
    jsGet (pushParent acc b s) b = some ((jsGet acc b).getD [] ++ [s]) := by
  unfold pushParent
  cases h : jsGet acc b <;> simp [h, jsGet_jsSet_self]

theorem jsGet_pushParent_ne (acc : List (String × List String))
    (b s name : String) (h : b ≠ name) :
    jsGet (pushParent acc b s) name = jsGet acc name := by
  unfold pushParent
  cases hg : jsGet acc b <;> simp [jsGet_jsSet_ne _ _ _ _ h]

theorem foldl_pushParent_get (pairs : List (String × String)) :
    ∀ (acc : List (String × List String)) (name : String),
    jsGet (pairs.foldl (fun a q => pushParent a q.2 q.1) acc) name =
      (match jsGet acc name with
       | some l => some (l ++ parentsOfPairs pairs name)
       | none =>
           if parentsOfPairs pairs name = [] then none
           else some (parentsOfPairs pairs name)) := by
  induction pairs with
  | nil =>
      intro acc name
      cases h : jsGet acc name <;> simp [parentsOfPairs, h]
  | cons q rest ih =>
      obtain ⟨s, b⟩ := q
      intro acc name
      rw [List.foldl_cons]
      rw [ih (pushParent acc b s) name]
      by_cases hb : b = name
      · subst hb
        rw [jsGet_pushParent_self]
        cases h : jsGet acc b <;> simp [parentsOfPairs, h]
      · rw [jsGet_pushParent_ne _ _ _ _ hb]
        cases h : jsGet acc name <;> simp [parentsOfPairs, hb, h]

theorem buildReverseIndex_eq_aux :
    ∀ (sbs : List (String × SuperblockData))
      (acc : List (String × List String)),
    sbs.foldl (fun a p => p.2.blocks.foldl (fun a2 b => pushParent a2 b p.1) a)
        acc =
      (forwardPairs sbs).foldl (fun a q => pushParent a q.2 q.1) acc := by
  intro sbs
  induction sbs with
  | nil => intro acc; simp [forwardPairs]
  | cons p rest ih =>
      intro acc
      have hfp : forwardPairs (p :: rest) =
          (p.2.blocks.map (fun b => (p.1, b))) ++ forwardPairs rest := by
        simp [forwardPairs]
      rw [List.foldl_cons, ih, hfp, List.foldl_append, List.foldl_map]

theorem reverseIndex_get (sbs : List (String × SuperblockData))
    (name : String) :
    jsGet (buildReverseIndex sbs) name =
      (if parentsList sbs name = [] then none
       else some (parentsList sbs name)) := by
  unfold buildReverseIndex parentsList
  rw [buildReverseIndex_eq_aux, foldl_pushParent_get]
  rfl

theorem mem_parentsOfPairs (pairs : List (String × String))
    (name S : String) :
    S ∈ parentsOfPairs pairs name ↔ (S, name) ∈ pairs := by
  induction pairs with
  | nil => simp [parentsOfPairs]
  | cons q rest ih =>
      obtain ⟨s, b⟩ := q
      by_cases hb : b = name
      · subst hb
        simp [parentsOfPairs, ih, Prod.ext_iff]
      · have hnb : name ≠ b := fun h => hb h.symm
        simp [parentsOfPairs, hb, ih, Prod.ext_iff, hnb]

theorem mem_forwardPairs (sbs : List (String × SuperblockData))
    (S name : String) :
    (S, name) ∈ forwardPairs sbs ↔
      ∃ p ∈ sbs, p.1 = S ∧ name ∈ p.2.blocks := by
  simp only [forwardPairs, List.mem_flatMap, List.mem_map]
  constructor
  · rintro ⟨p, hp, b, hb, heq⟩
    injection heq with h1 h2
    exact ⟨p, hp, h1, h2 ▸ hb⟩
  · rintro ⟨p, hp, h1, h2⟩
    exact ⟨p, hp, name, h2, by rw [h1]⟩

theorem firstFailure_append {α ε : Type} (rs1 rs2 : List (Result α ε))
    (h : ∀ r ∈ rs1, isFailure r = false) :
    firstFailure (rs1 ++ rs2) = firstFailure rs2 := by
  induction rs1 with
  | nil => rfl
  | cons r rest ih =>
      cases r with
      | success d =>
          simpa [firstFailure] using
            ih (fun x hx => h x (List.mem_cons_of_mem _ hx))
      | failure e =>
          exact absurd (h _ (List.mem_cons_self _ _)) (by simp [isFailure])

theorem firstFailure_exists {α ε : Type} (rs : List (Result α ε))
    (h : ∃ r ∈ rs, isFailure r = true) :
    ∃ e, firstFailure rs = some e ∧ Result.failure e ∈ rs := by
  induction rs with
  | nil => simp at h
  | cons r rest ih =>
      cases r with
      | success d =>
          rcases h with ⟨x, hx, hfx⟩
          rcases List.mem_cons.mp hx with h1 | h2
          · subst h1; simp [isFailure] at hfx
          · rcases ih ⟨x, h2, hfx⟩ with ⟨e, he1, he2⟩
            exact ⟨e, by simpa [firstFailure] using he1,
                   List.mem_cons_of_mem _ he2⟩
      | failure e =>
          exact ⟨e, rfl, List.mem_cons_self _ _⟩

theorem foldl_append_eq_flatMap {α β : Type} (l : List α) (f : α → List β) :
    ∀ acc : List β,
      l.foldl (fun a x => a ++ f x) acc = acc ++ l.flatMap f := by
  induction l with
  | nil => intro acc; simp
  | cons x rest ih => intro acc; simp [ih, List.append_assoc]

theorem charsEqPre_append (s r : List Char) : charsEqPre s (s ++ r) = true := by
  induction s with
  | nil => rfl
  | cons c t ih => simp [charsEqPre, ih]

theorem charsScan_sandwich (s : List Char) :
    ∀ p r : List Char, charsScan s (p ++ (s ++ r)) = true := by
  intro p
  induction p with
  | nil =>
      intro r
      cases s with
      | nil => cases r <;> simp [charsScan, charsEqPre]
      | cons c t =>
          have h := charsEqPre_append (c :: t) r
          simp only [List.cons_append] at h
          simp [charsScan, h]
  | cons c t ih =>
      intro r
      simp [charsScan, ih r]

theorem hasSubstr_sandwich (pre mid post : String) :
    hasSubstr (pre ++ (mid ++ post)) mid = true := by
  unfold hasSubstr
  have hd : (pre ++ (mid ++ post)).data =
      pre.data ++ (mid.data ++ post.data) := by
    simp [String.data_append]
  rw [hd]
  exact charsScan_sandwich mid.data pre.data post.data

/-! ## Auxiliary lemmas for the validator and loader claims -/

theorem checkRequiredEntries_eq_none_iff (resources : List RawRequiredResource)
    (blockPath : String) :
    ∀ i, checkRequiredEntries resources i blockPath = none ↔
      resources.all
        (fun r => isStringValue r.src || isStringValue r.link) = true := by
  induction resources with
  | nil => intro i; simp [checkRequiredEntries]
  | cons r rest ih =>
      intro i
      cases hsrc : isStringValue r.src <;>
        cases hlink : isStringValue r.link <;>
        simp [checkRequiredEntries, hsrc, hlink, ih (i + 1)]

theorem checkRequiredEntries_failure_path
    (resources : List RawRequiredResource) (blockPath : String) :
    ∀ i e, checkRequiredEntries resources i blockPath = some e →
      e.filePath = blockPath := by
  induction resources with
  | nil => intro i e h; simp [checkRequiredEntries] at h
  | cons r rest ih =>
      intro i e h
      by_cases hn : (!isStringValue r.src && !isStringValue r.link) = true
      · rw [checkRequiredEntries, if_pos hn] at h
        cases h
        rfl
      · rw [checkRequiredEntries, if_neg hn] at h
        exact ih (i + 1) e h

theorem requiredCheckResult_eq_none_iff (block : RawBlock)
    (blockPath : String) :
    requiredCheckResult block blockPath = none ↔
      (block.required.getD []).all
        (fun r => isStringValue r.src || isStringValue r.link) = true := by
  unfold requiredCheckResult
  cases hreq : block.required with
  | none => simp
  | some resources =>
      simpa using checkRequiredEntries_eq_none_iff resources blockPath 0

theorem requiredCheckResult_some_path (block : RawBlock)
    (blockPath : String) (e : DataValidationError)
    (h : requiredCheckResult block blockPath = some e) :
    e.filePath = blockPath := by
  unfold requiredCheckResult at h
  cases hreq : block.required with
  | none => rw [hreq] at h; cases h
  | some resources =>
      rw [hreq] at h
      exact checkRequiredEntries_failure_path resources blockPath 0 e h

theorem validateRequiredAndTemplate_success_iff (block : RawBlock)
    (blockPath : String) :
    validateRequiredAndTemplate block blockPath = Result.success () ↔
      ((block.required.getD []).all
          (fun r => isStringValue r.src || isStringValue r.link) = true ∧
       (∀ t, block.template = some t → t ≠ JsVal.other)) := by
  unfold validateRequiredAndTemplate
  cases hrc : requiredCheckResult block blockPath with
  | some e =>
      simp only [hrc]
      constructor
      · intro h; exact Result.noConfusion h
      · rintro ⟨h1, -⟩
        have h2 := (requiredCheckResult_eq_none_iff block blockPath).mpr h1
        rw [hrc] at h2
        cases h2
  | none =>
      have h1 := (requiredCheckResult_eq_none_iff block blockPath).mp hrc
      simp only [hrc]
      cases htp : block.template with
      | none => simp [h1]
      | some t => cases t <;> simp [h1]

theorem validateRequiredAndTemplate_failure_path (block : RawBlock)
    (blockPath : String) (e : DataValidationError)
    (h : validateRequiredAndTemplate block blockPath = Result.failure e) :
    e.filePath = blockPath := by
  unfold validateRequiredAndTemplate at h
  cases hrc : requiredCheckResult block blockPath with
  | some e2 =>
      rw [hrc] at h
      cases h
      exact requiredCheckResult_some_path block blockPath _ hrc
  | none =>
      rw [hrc] at h
      cases htp : block.template with
      | none => rw [htp] at h; exact Result.noConfusion h
      | some t =>
          rw [htp] at h
          cases t with
          | str s => exact Result.noConfusion h
          | other => cases h; rfl

theorem validateBlockEnums_reduces (block : RawBlock) (blockPath : String)
    (hLayout : validBlockLayouts.contains block.blockLayout = true)
    (hLabel : ∀ lb, block.blockLabel = some lb →
      validBlockLabels.contains lb = true) :
    validateBlockEnums block blockPath =
      validateRequiredAndTemplate block blockPath := by
  unfold validateBlockEnums
  have hl : (!validBlockLayouts.contains block.blockLayout) = false := by
    rw [hLayout]; rfl
  rw [if_neg (by rw [hl]; exact Bool.false_ne_true)]
  split
  · next lb hlb =>
      have hb : (!validBlockLabels.contains lb) = false := by
        rw [hLabel lb hlb]; rfl
      rw [if_neg (by rw [hb]; exact Bool.false_ne_true)]
  · rfl

theorem validateBlockEnums_failure_path (block : RawBlock)
    (blockPath : String) (e : DataValidationError)
    (h : validateBlockEnums block blockPath = Result.failure e) :
    e.filePath = blockPath := by
  unfold validateBlockEnums at h
  split at h
  · cases h; rfl
  · split at h
    · split at h
      · cases h; rfl
      · exact validateRequiredAndTemplate_failure_path block blockPath e h
    · exact validateRequiredAndTemplate_failure_path block blockPath e h

theorem buildNameMap_keys_nodup {α : Type} (names : List String)
    (results : List (Result α DataValidationError)) :
    ((buildNameMap names results).map Prod.fst).Nodup := by
  unfold buildNameMap
  have haux : ∀ (l : List (String × Result α DataValidationError))
      (acc : List (String × α)), (acc.map Prod.fst).Nodup →
      ((l.foldl (fun acc p =>
          match p.2 with
          | Result.success d => if p.1 ≠ "" then jsSet acc p.1 d else acc
          | Result.failure _ => acc) acc).map Prod.fst).Nodup := by
    intro l
    induction l with
    | nil => intro acc h; exact h
    | cons p rest ih =>
        intro acc h
        rw [List.foldl_cons]
        cases hp : p.2 with
        | success d =>
            by_cases hn : p.1 ≠ ""
            · simp only [hp, if_pos hn]
              exact ih _ (keys_jsSet_nodup _ _ _ h)
            · simp only [hp, if_neg hn]
              exact ih _ h
        | failure e => simp only [hp]; exact ih _ h
  exact haux _ [] (by simp)

/-! ## Claim theorems -/

/-- C8: the kebab-case to canonical enum normalization is a bijection over
the declared literal sets: each of the 8 raw block-layout literals and each
of the 9 raw block-label literals maps to exactly one canonical symbol, and
no two distinct raw literals in the same set map to the same canonical
symbol. -/
theorem c8_enum_mapping_bijective :
    validBlockLayouts.length = 8 ∧
    validBlockLabels.length = 9 ∧
    validBlockLayouts.all (fun r => (blockLayoutMapping r).isSome) = true ∧
    validBlockLabels.all (fun r => (blockLabelMapping r).isSome) = true ∧
    validBlockLayouts.all
      (fun r => normalizeBlockLayout r == blockLayoutMapping r) = true ∧
    (validBlockLayouts.map blockLayoutMapping).Nodup ∧
    (validBlockLabels.map blockLabelMapping).Nodup := by
  decide

/-- C5: a single normalization function handles both schema generations:
with a chapters array present the normalized flattened block list is exactly
the concatenation of all module block lists in chapter order then module
order, duplicates retained; with chapters absent it equals the raw flat
blocks list unchanged. -/
theorem c5_superblock_normalization (dashedName : String)
    (raw : RawSuperblock) (certifications : List String) :
    (∀ chs, raw.chapters = some chs →
      (normalizeSuperblock dashedName raw certifications).blocks =
        chs.flatMap (fun ch => ch.modules.flatMap (fun m => m.blocks))) ∧
    (∀ bs, raw.chapters = none → raw.blocks = some bs →
      (normalizeSuperblock dashedName raw certifications).blocks = bs) := by
  constructor
  · intro chs hch
    simp [normalizeSuperblock, hch, normalizeChapter, normalizeModule,
      List.flatMap_map]
  · intro bs hch hb
    simp [normalizeSuperblock, hch, hb]

/-- C5 witness: the two generations evaluated on concrete superblocks. -/
theorem c5_witness :
    (normalizeSuperblock "s" rawSbC5 []).blocks = ["b1", "b2", "b2", "b3"] ∧
    (normalizeSuperblock "s" rawSbC5flat []).blocks = ["b1", "b2", "b1"] := by
  constructor
  · rw [(c5_superblock_normalization "s" rawSbC5 []).1 _ rfl]
    decide
  · exact (c5_superblock_normalization "s" rawSbC5flat []).2 _ rfl rfl

/-- C9: for an identifier not present in the store, each of the provider
lookups getSuperblock, getBlock and getChallenge returns the explicit
not-found sentinel (`none`) — they are total functions, so they never
throw — and getCurriculum always returns the curriculum singleton. -/
theorem c9_provider_lookups (p : InMemoryDataProvider)
    (idS idB idC : String) :
    p.getCurriculum = p.store.curriculum ∧
    (idS ∉ p.store.superblocks.map Prod.fst → p.getSuperblock idS = none) ∧
    (idB ∉ p.store.blocks.map Prod.fst → p.getBlock idB = none) ∧
    (idC ∉ p.store.challenges.map Prod.fst → p.getChallenge idC = none) := by
  refine ⟨rfl, ?_, ?_, ?_⟩ <;> intro h <;>
    exact jsGet_eq_none_of_not_mem _ _ h

/-- C9 witness: concrete missing identifiers on a concrete provider. -/
theorem c9_witness :
    providerC9.getCurriculum = providerC9.store.curriculum ∧
    providerC9.getSuperblock "nope" = none ∧
    providerC9.getBlock "nope" = none ∧
    providerC9.getChallenge "nope" = none := by
  obtain ⟨h1, h2, h3, h4⟩ := c9_provider_lookups providerC9 "nope" "nope" "nope"
  exact ⟨h1, h2 (by decide), h3 (by decide), h4 (by decide)⟩

/-- C4 counterexample: the claim says an entry carrying BOTH a string `src`
and a string `link` fails validation, but `validateBlockEnums` accepts a
block whose only required-resource entry has both. -/
theorem c4_counterexample :
    blockC4.required = some [resC4] ∧
    isStringValue resC4.src = true ∧
    isStringValue resC4.link = true ∧
    validateBlockEnums blockC4 "blocks/c4-block.json" = Result.success () := by
  refine ⟨rfl, rfl, rfl, by decide⟩

/-- C4 (amended): enum/shape validation accepts a required-resource entry
exactly when it carries AT LEAST one of `src` and `link` as a string (an
entry with both is accepted); an entry with neither fails with an error
carrying the originating file path, and a template field, when present,
must be a string. -/
theorem c4_required_resource_validation (block : RawBlock)
    (blockPath : String)
    (hLayout : validBlockLayouts.contains block.blockLayout = true)
    (hLabel : ∀ lb, block.blockLabel = some lb →
      validBlockLabels.contains lb = true) :
    (validateBlockEnums block blockPath = Result.success () ↔
      ((block.required.getD []).all
          (fun r => isStringValue r.src || isStringValue r.link) = true ∧
       (∀ t, block.template = some t → t ≠ JsVal.other))) ∧
    (∀ e, validateBlockEnums block blockPath = Result.failure e →
      e.filePath = blockPath) := by
  constructor
  · rw [validateBlockEnums_reduces block blockPath hLayout hLabel]
    exact validateRequiredAndTemplate_success_iff block blockPath
  · intro e he
    exact validateBlockEnums_failure_path block blockPath e he

/-- C4 witness: the amended validation rule evaluated on a block whose only
entry has neither field as a string, and on a fully valid block. -/
theorem c4_witness :
    validateBlockEnums blockC4neither "w4.json" ≠ Result.success () ∧
    validateBlockEnums (validRawBlock "w4") "w4.json" = Result.success () := by
  constructor
  · have h := (c4_required_resource_validation blockC4neither "w4.json"
      (by decide) (by intro lb hlb; cases hlb)).1
    intro hc
    exact absurd (h.mp hc).1 (by decide)
  · have h := (c4_required_resource_validation (validRawBlock "w4") "w4.json"
      (by decide) (by intro lb hlb; cases hlb)).1
    exact h.mpr ⟨by decide, fun t ht => by cases ht⟩

/-- C3 counterexample: with two loaded superblocks both referencing the
block "shared", the phase-3 collection handed to the bulk block loader
contains "shared" twice — distinct identifiers are NOT passed at most
once. -/
theorem c3_counterexample :
    loadAllSuperblocks ["sb-a", "sb-b"] "d" fsC3 = Result.success sbsC3 ∧
    collectAllBlockNames sbsC3 = ["shared", "shared"] ∧
    (collectAllBlockNames sbsC3).count "shared" = 2 := by
  refine ⟨by decide, by decide, by decide⟩

/-- C3 (amended): the orchestration collects the block identifiers from
both the flat list and the chapters/modules structure of every loaded
superblock, but does NOT de-duplicate: the collection is exactly the
concatenation of each superblock's references in map order (duplicates
retained), and de-duplication happens only implicitly in the name-keyed
map built from a successful bulk load, whose keys are distinct. -/
theorem c3_collection_not_deduplicated
    (sbs : List (String × RawSuperblock)) (names : List String)
    (dataPath : String) (fs : FS) (m : List (String × RawBlock))
    (h : loadAllBlocks names dataPath fs = Result.success m) :
    collectAllBlockNames sbs = sbs.flatMap (fun p => superblockRefs p.2) ∧
    (m.map Prod.fst).Nodup := by
  constructor
  · unfold collectAllBlockNames
    simpa using foldl_append_eq_flatMap sbs (fun p => superblockRefs p.2) []
  · unfold loadAllBlocks at h
    cases hf : firstFailure (names.map (fun n => loadBlockFile n dataPath fs))
      with
    | some e => rw [hf] at h; cases h
    | none =>
        rw [hf] at h
        cases h
        exact buildNameMap_keys_nodup _ _

/-- C3 witness: the amended statement evaluated on the concrete duplicated
collection and a concrete successful bulk load. -/
theorem c3_witness :
    collectAllBlockNames sbsC3 =
      sbsC3.flatMap (fun p => superblockRefs p.2) ∧
    (([("shared", validRawBlock "shared")] :
        List (String × RawBlock)).map Prod.fst).Nodup := by
  exact c3_collection_not_deduplicated sbsC3 ["shared", "shared"] "d" fsC3
    [("shared", validRawBlock "shared")] (by decide)

theorem strAppend_assoc (a b c : String) : (a ++ b) ++ c = a ++ (b ++ c) := by
  apply String.ext
  simp [String.data_append, List.append_assoc]

theorem firstFailure_split {α : Type} (f : String → Result α DataValidationError)
    (ns1 ns2 : List String) (x : String) (e : DataValidationError)
    (hx : f x = Result.failure e)
    (h1 : ∀ n ∈ ns1, isFailure (f n) = false) :
    firstFailure ((ns1 ++ x :: ns2).map f) = some e := by
  have hside : ∀ r ∈ ns1.map f, isFailure r = false := by
    intro r hr
    rcases List.mem_map.mp hr with ⟨n, hn, rfl⟩
    exact h1 n hn
  rw [List.map_append, firstFailure_append _ _ hside, List.map_cons, hx]
  rfl

/-- C6: for every batch of identifiers given to a bulk loader (superblocks
or blocks) in which the k-th load fails and the preceding ones succeed, the
bulk operation returns exactly that first failing result in input order and
does not return success for the batch, regardless of the items after the
failure; no multi-error aggregation occurs. -/
theorem c6_bulk_fail_fast (dataPath : String) (fs : FS)
    (ns1 ns2 : List String) (x : String) (e : DataValidationError)
    (ms1 ms2 : List String) (y : String) (e2 : DataValidationError)
    (hx : loadBlockFile x dataPath fs = Result.failure e)
    (hns1 : ∀ n ∈ ns1, isFailure (loadBlockFile n dataPath fs) = false)
    (hy : loadSuperblockFile y dataPath fs = Result.failure e2)
    (hms1 : ∀ n ∈ ms1, isFailure (loadSuperblockFile n dataPath fs) = false) :
    loadAllBlocks (ns1 ++ x :: ns2) dataPath fs = Result.failure e ∧
    (∀ m, loadAllBlocks (ns1 ++ x :: ns2) dataPath fs ≠ Result.success m) ∧
    loadAllSuperblocks (ms1 ++ y :: ms2) dataPath fs = Result.failure e2 ∧
    (∀ m, loadAllSuperblocks (ms1 ++ y :: ms2) dataPath fs ≠
      Result.success m) := by
  have hb := firstFailure_split (fun n => loadBlockFile n dataPath fs)
    ns1 ns2 x e hx hns1
  have hs := firstFailure_split (fun n => loadSuperblockFile n dataPath fs)
    ms1 ms2 y e2 hy hms1
  have hball : loadAllBlocks (ns1 ++ x :: ns2) dataPath fs =
      Result.failure e := by
    unfold loadAllBlocks
    rw [hb]
  have hsall : loadAllSuperblocks (ms1 ++ y :: ms2) dataPath fs =
      Result.failure e2 := by
    unfold loadAllSuperblocks
    rw [hs]
  refine ⟨hball, ?_, hsall, ?_⟩
  · intro m hm
    rw [hball] at hm
    exact Result.noConfusion hm
  · intro m hm
    rw [hsall] at hm
    exact Result.noConfusion hm

/-- C6 witness: concrete batches where the second item fails while the
first succeeds and a third would be irrelevant. -/
theorem c6_witness :
    loadAllBlocks ["good-block", "bad-block", "also-missing"] "d" fsC6 =
      Result.failure ⟨"Failed to load block \"bad-block\": ENOENT",
        "d/blocks/bad-block.json", none⟩ ∧
    loadAllSuperblocks ["sb-ok", "sb-missing"] "d" fsC6 =
      Result.failure ⟨"Failed to load superblock \"sb-missing\": EACCES",
        "d/superblocks/sb-missing.json", none⟩ := by
  obtain ⟨h1, -, h3, -⟩ := c6_bulk_fail_fast "d" fsC6
    ["good-block"] ["also-missing"] "bad-block"
    ⟨"Failed to load block \"bad-block\": ENOENT",
      "d/blocks/bad-block.json", none⟩
    ["sb-ok"] [] "sb-missing"
    ⟨"Failed to load superblock \"sb-missing\": EACCES",
      "d/superblocks/sb-missing.json", none⟩
    (by decide) (by decide) (by decide) (by decide)
  exact ⟨h1, h3⟩

theorem findMissingRef_some (sbName : String) (refs : List String)
    (blocks : List (String × RawBlock)) (e : DataValidationError)
    (h : findMissingRef sbName refs blocks = some e) :
    ∃ b ∈ refs, jsHas blocks b = false ∧ e = refError b sbName := by
  induction refs with
  | nil => cases h
  | cons b rest ih =>
      unfold findMissingRef at h
      by_cases hb : jsHas blocks b = true
      · rw [if_pos hb] at h
        rcases ih h with ⟨b2, hb2, hhas, heq⟩
        exact ⟨b2, List.mem_cons_of_mem _ hb2, hhas, heq⟩
      · rw [if_neg hb] at h
        cases h
        exact ⟨b, List.mem_cons_self _ _, Bool.eq_false_iff.mpr hb, rfl⟩

theorem validateSuperblockReferences_failure
    (sbs : List (String × RawSuperblock))
    (blocks : List (String × RawBlock)) (e : DataValidationError)
    (h : validateSuperblockReferences sbs blocks = Result.failure e) :
    ∃ sbName sb, (sbName, sb) ∈ sbs ∧
      ∃ b ∈ superblockRefs sb, jsHas blocks b = false ∧
        e = refError b sbName := by
  induction sbs with
  | nil => exact Result.noConfusion h
  | cons p rest ih =>
      obtain ⟨sbName, sb⟩ := p
      unfold validateSuperblockReferences at h
      split at h
      · rename_i e2 heq
        cases h
        rcases findMissingRef_some sbName (superblockRefs sb) blocks _ heq
          with ⟨b, hb, hhas, heqe⟩
        exact ⟨sbName, sb, List.mem_cons_self _ _, b, hb, hhas, heqe⟩
      · rcases ih h with ⟨sbName2, sb2, hmem, hrest⟩
        exact ⟨sbName2, sb2, List.mem_cons_of_mem _ hmem, hrest⟩

theorem refError_contains_both (b sbName : String) :
    hasSubstr (refError b sbName).message b = true ∧
    hasSubstr (refError b sbName).message sbName = true := by
  constructor
  · have h : (refError b sbName).message =
        "Block \"" ++ (b ++ ("\" referenced in superblock \"" ++
          (sbName ++ "\" but file not found"))) := by
      simp [refError, strAppend_assoc]
    rw [h]
    exact hasSubstr_sandwich _ _ _
  · have h : (refError b sbName).message =
        ("Block \"" ++ b ++ "\" referenced in superblock \"") ++
          (sbName ++ "\" but file not found") := by
      simp [refError, strAppend_assoc]
    rw [h]
    exact hasSubstr_sandwich _ _ _

theorem loadBlockFile_failure_message (b dataPath : String) (fs : FS)
    (e : DataValidationError)
    (h : loadBlockFile b dataPath fs = Result.failure e) :
    fs.blockFiles b = none ∧ hasSubstr e.message b = true := by
  unfold loadBlockFile at h
  cases hf : fs.blockFiles b with
  | some data => rw [hf] at h; exact Result.noConfusion h
  | none =>
      rw [hf] at h
      cases h
      refine ⟨rfl, ?_⟩
      have hm : ("Failed to load block \"" ++ b ++ "\": " ++
            fs.blockReadError b) =
          "Failed to load block \"" ++ (b ++ ("\": " ++
            fs.blockReadError b)) := by
        simp [strAppend_assoc]
      simp only [hm]
      exact hasSubstr_sandwich _ _ _

/-- C2 counterexample: with superblock "sb-a" referencing the missing block
"ghost-block", the pipeline fails at the bulk block load; the failure
message contains "ghost-block" but NOT the superblock identifier "sb-a",
contradicting the claim that it contains both. -/
theorem c2_counterexample :
    initializeDataStore "d" fsC2 = PipelineOutcome.returned (Result.failure
      ⟨"Failed to load block \"ghost-block\": ENOENT",
        "d/blocks/ghost-block.json", none⟩) ∧
    hasSubstr "Failed to load block \"ghost-block\": ENOENT"
      "ghost-block" = true ∧
    hasSubstr "Failed to load block \"ghost-block\": ENOENT" "sb-a" = false := by
  refine ⟨by decide, by decide, by decide⟩

/-- C2 (amended): when a loaded superblock references a block identifier
with no block file, the pipeline returns a typed failure whose message
contains the identifier of a missing referenced block (the first one in
collection order) — but not, in general, the superblock's identifier,
because the bulk block load fails before `validateSuperblockReferences`
runs; the reference validator itself, whenever it returns a failure, names
both the missing block and the referencing superblock in its message. -/
theorem c2_missing_block_reference (dataPath : String) (fs : FS)
    (rc : RawCurriculum) (sbs : List (String × RawSuperblock))
    (sbName : String) (sb : RawSuperblock) (b : String)
    (h1 : loadCurriculumFile dataPath fs = Result.success rc)
    (h2 : loadAllSuperblocks rc.superblocks dataPath fs = Result.success sbs)
    (h3 : (sbName, sb) ∈ sbs)
    (h4 : b ∈ superblockRefs sb)
    (h5 : fs.blockFiles b = none) :
    (∃ e b2, initializeDataStore dataPath fs =
        PipelineOutcome.returned (Result.failure e) ∧
      fs.blockFiles b2 = none ∧ b2 ∈ collectAllBlockNames sbs ∧
      hasSubstr e.message b2 = true) ∧
    (∀ (sbs2 : List (String × RawSuperblock))
       (blocks : List (String × RawBlock)) (e : DataValidationError),
      validateSuperblockReferences sbs2 blocks = Result.failure e →
      ∃ sbName2 sb2, (sbName2, sb2) ∈ sbs2 ∧
        ∃ b2 ∈ superblockRefs sb2, jsHas blocks b2 = false ∧
          hasSubstr e.message b2 = true ∧
          hasSubstr e.message sbName2 = true) := by
  constructor
  · have hbmem : b ∈ collectAllBlockNames sbs := by
      unfold collectAllBlockNames
      rw [show sbs.foldl (fun acc p => acc ++ superblockRefs p.2) [] =
          [] ++ sbs.flatMap (fun p => superblockRefs p.2) from
          foldl_append_eq_flatMap sbs (fun p => superblockRefs p.2) []]
      rw [List.nil_append]
      exact List.mem_flatMap.mpr ⟨(sbName, sb), h3, h4⟩
    have hfail : isFailure (loadBlockFile b dataPath fs) = true := by
      unfold loadBlockFile
      rw [h5]
      rfl
    have hex : ∃ r ∈ (collectAllBlockNames sbs).map
        (fun n => loadBlockFile n dataPath fs), isFailure r = true :=
      ⟨loadBlockFile b dataPath fs, List.mem_map.mpr ⟨b, hbmem, rfl⟩, hfail⟩
    rcases firstFailure_exists _ hex with ⟨e, hff, hmem⟩
    rcases List.mem_map.mp hmem with ⟨b2, hb2mem, hb2eq⟩
    rcases loadBlockFile_failure_message b2 dataPath fs e hb2eq
      with ⟨hb2none, hb2sub⟩
    refine ⟨e, b2, ?_, hb2none, hb2mem, hb2sub⟩
    have hblocks : loadAllBlocks (collectAllBlockNames sbs) dataPath fs =
        Result.failure e := by
      unfold loadAllBlocks
      rw [hff]
    have hload : loadPhase dataPath fs = Result.failure e := by
      unfold loadPhase
      simp only [h1, h2, hblocks]
    unfold initializeDataStore
    simp only [hload]
  · intro sbs2 blocks e hval
    rcases validateSuperblockReferences_failure sbs2 blocks e hval
      with ⟨sbName2, sb2, hmem, b2, hb2, hhas, heq⟩
    rcases refError_contains_both b2 sbName2 with ⟨hc1, hc2⟩
    exact ⟨sbName2, sb2, hmem, b2, hb2, hhas, heq ▸ hc1, heq ▸ hc2⟩

/-- C2 witness: the amended statement evaluated on the ghost-block
scenario and on a direct call of the reference validator. -/
theorem c2_witness :
    (∃ e b2, initializeDataStore "d" fsC2 =
        PipelineOutcome.returned (Result.failure e) ∧
      fsC2.blockFiles b2 = none ∧
      b2 ∈ collectAllBlockNames [("sb-a", ⟨some ["ghost-block"], none⟩)] ∧
      hasSubstr e.message b2 = true) ∧
    (∃ sbName2 sb2,
      (sbName2, sb2) ∈ [("sb-a", (⟨some ["ghost-block"], none⟩ :
        RawSuperblock))] ∧
      ∃ b2 ∈ superblockRefs sb2, jsHas ([] : List (String × RawBlock)) b2 =
          false ∧
        hasSubstr (refError "ghost-block" "sb-a").message b2 = true ∧
        hasSubstr (refError "ghost-block" "sb-a").message sbName2 = true) := by
  obtain ⟨h1, h2⟩ := c2_missing_block_reference "d" fsC2
    ⟨["sb-a"], []⟩ [("sb-a", ⟨some ["ghost-block"], none⟩)]
    "sb-a" ⟨some ["ghost-block"], none⟩ "ghost-block"
    (by decide) (by decide) (by decide) (by decide) (by decide)
  exact ⟨h1, h2 [("sb-a", ⟨some ["ghost-block"], none⟩)] [] _ (by decide)⟩

theorem normalizeBlocksPhase_error_shape (entries : List (String × RawBlock))
    (rev : List (String × List String)) (m : String)
    (h : normalizeBlocksPhase entries rev = Except.error m) :
    ∃ name, m = zeroParentMessage name := by
  induction entries with
  | nil => exact Except.noConfusion h
  | cons p rest ih =>
      obtain ⟨name, raw⟩ := p
      unfold normalizeBlocksPhase at h
      split at h
      · cases h; exact ⟨name, rfl⟩
      · split at h
        · cases h; exact ⟨name, rfl⟩
        · split at h
          · rename_i m2 heq
            cases h
            exact ih heq
          · exact Except.noConfusion h

theorem normalizeBlocksPhase_error_exists (entries : List (String × RawBlock))
    (rev : List (String × List String))
    (h : ∃ q ∈ entries, parentsMissing rev q.1 = true) :
    ∃ name, normalizeBlocksPhase entries rev =
      Except.error (zeroParentMessage name) := by
  induction entries with
  | nil => simp at h
  | cons p rest ih =>
      obtain ⟨name, raw⟩ := p
      by_cases hp : parentsMissing rev name = true
      · cases hg : jsGet rev name with
        | none => exact ⟨name, by simp [normalizeBlocksPhase, hg]⟩
        | some ps =>
            have hps : ps.isEmpty = true := by
              simpa [parentsMissing, hg] using hp
            exact ⟨name, by simp [normalizeBlocksPhase, hg, hps]⟩
      · rcases h with ⟨q, hq, hqm⟩
        rcases List.mem_cons.mp hq with hq1 | hmem
        · rw [hq1] at hqm
          exact absurd hqm hp
        · rcases ih ⟨q, hmem, hqm⟩ with ⟨name2, hrec⟩
          refine ⟨name2, ?_⟩
          cases hg : jsGet rev name with
          | none => exact absurd (by simp [parentsMissing, hg]) hp
          | some ps =>
              have hne : ps.isEmpty = false := by
                cases hps : ps.isEmpty
                · rfl
                · exact absurd (by simp [parentsMissing, hg, hps]) hp
              simp [normalizeBlocksPhase, hg, hne, hrec]

theorem normalizeBuildPhase_error_shape (lr : LoadedRaw) (m : String)
    (h : normalizeBuildPhase lr = Except.error m) :
    ∃ name, m = zeroParentMessage name := by
  simp only [normalizeBuildPhase] at h
  split at h
  · rename_i m2 heq
    cases h
    exact normalizeBlocksPhase_error_shape _ _ _ heq
  · exact Except.noConfusion h

/-- C7: a block with an empty or missing reverse-index entry at the
block-normalization phase makes the pipeline abort by throwing (the thrown
message is always the zero-parent message, and every pipeline run that
reaches phase 10 with such a block throws), while load and validation
errors are returned as typed Result failures. -/
theorem c7_zero_parent_aborts (dataPath : String) (fs : FS) :
    (∀ m, initializeDataStore dataPath fs = PipelineOutcome.thrown m →
      ∃ name, m = zeroParentMessage name) ∧
    (∀ lr msg, loadPhase dataPath fs = Result.success lr →
      validatePhase dataPath lr = Result.success () →
      normalizeBuildPhase lr = Except.error msg →
      initializeDataStore dataPath fs = PipelineOutcome.thrown msg) ∧
    (∀ entries rev, (∃ q ∈ entries, parentsMissing rev q.1 = true) →
      ∃ name, normalizeBlocksPhase entries rev =
        Except.error (zeroParentMessage name)) ∧
    (∀ e, loadPhase dataPath fs = Result.failure e →
      initializeDataStore dataPath fs =
        PipelineOutcome.returned (Result.failure e)) ∧
    (∀ lr e, loadPhase dataPath fs = Result.success lr →
      validatePhase dataPath lr = Result.failure e →
      initializeDataStore dataPath fs =
        PipelineOutcome.returned (Result.failure e)) := by
  refine ⟨?_, ?_, ?_, ?_, ?_⟩
  · intro m h
    unfold initializeDataStore at h
    split at h
    · exact PipelineOutcome.noConfusion h
    · split at h
      · exact PipelineOutcome.noConfusion h
      · split at h
        · rename_i lr hload hval m2 heq
          cases h
          exact normalizeBuildPhase_error_shape _ _ heq
        · exact PipelineOutcome.noConfusion h
  · intro lr msg h1 h2 h3
    unfold initializeDataStore
    simp only [h1, h2, h3]
  · intro entries rev h
    exact normalizeBlocksPhase_error_exists entries rev h
  · intro e h
    unfold initializeDataStore
    simp only [h]
  · intro lr e h1 h2
    unfold initializeDataStore
    simp only [h1, h2]

/-- C7 witness: on the concrete both-shapes scenario the phases succeed up
to normalization and the pipeline throws the zero-parent message. -/
theorem c7_witness :
    initializeDataStore "d" fsC7 =
      PipelineOutcome.thrown (zeroParentMessage "orphan-c7") := by
  obtain ⟨-, h2, -, -, -⟩ := c7_zero_parent_aborts "d" fsC7
  exact h2 lrC7 (zeroParentMessage "orphan-c7")
    (by decide) (by decide) (by rfl)

/-- C10: a raw superblock with both a chapters array and a flat blocks
array has its flat list ignored by superblock normalization (the flattened
list comes only from chapters/modules), while the orchestration's
block-name collection and the superblock-reference validator both include
the flat entries; consequently, on the concrete scenario where a block is
named only in such a flat list, the pipeline loads and validates it but
aborts with the zero-parent exception. -/
theorem c10_flat_ignored_under_chapters :
    (∀ name raw certs chs, RawSuperblock.chapters raw = some chs →
      (normalizeSuperblock name raw certs).blocks =
        chs.flatMap (fun ch => ch.modules.flatMap (fun m => m.blocks))) ∧
    (∀ sb : RawSuperblock, superblockRefs sb =
      sb.blocks.getD [] ++
        (sb.chapters.getD []).flatMap
          (fun ch => ch.modules.flatMap (fun m => m.blocks))) ∧
    (∀ (sbs : List (String × RawSuperblock)) n sb b, (n, sb) ∈ sbs →
      b ∈ sb.blocks.getD [] → b ∈ collectAllBlockNames sbs) ∧
    initializeDataStore "d" fsC10 =
      PipelineOutcome.thrown (zeroParentMessage "orphan-c10") := by
  refine ⟨?_, ?_, ?_, by decide⟩
  · intro name raw certs chs hch
    simp [normalizeSuperblock, hch, normalizeChapter, normalizeModule,
      List.flatMap_map]
  · intro sb
    unfold superblockRefs
    cases sb.blocks <;> cases sb.chapters <;> rfl
  · intro sbs n sb b hmem hflat
    unfold collectAllBlockNames
    rw [show sbs.foldl (fun acc p => acc ++ superblockRefs p.2) [] =
        [] ++ sbs.flatMap (fun p => superblockRefs p.2) from
        foldl_append_eq_flatMap sbs (fun p => superblockRefs p.2) []]
    rw [List.nil_append]
    refine List.mem_flatMap.mpr ⟨(n, sb), hmem, ?_⟩
    unfold superblockRefs
    apply List.mem_append_left
    cases hb : sb.blocks with
    | none => rw [hb] at hflat; cases hflat
    | some bs => rw [hb] at hflat; exact hflat

/-- C10 witness: the general parts evaluated on the concrete both-shapes
superblock, plus the concrete pipeline abort. -/
theorem c10_witness :
    (normalizeSuperblock "sb-x" sbC10raw []).blocks = ["kept-c10"] ∧
    "orphan-c10" ∈ collectAllBlockNames [("sb-x", sbC10raw)] ∧
    initializeDataStore "d" fsC10 =
      PipelineOutcome.thrown (zeroParentMessage "orphan-c10") := by
  obtain ⟨h1, -, h3, h4⟩ := c10_flat_ignored_under_chapters
  refine ⟨?_, ?_, h4⟩
  · rw [h1 "sb-x" sbC10raw [] _ rfl]
    decide
  · exact h3 [("sb-x", sbC10raw)] "sb-x" sbC10raw "orphan-c10"
      (List.mem_cons_self _ _) (by decide)

theorem normalizeBlocksPhase_ok (entries : List (String × RawBlock))
    (rev : List (String × List String)) (bs : List (String × BlockData))
    (h : normalizeBlocksPhase entries rev = Except.ok bs) :
    ∀ q ∈ bs, ∃ raw ps, (q.1, raw) ∈ entries ∧ jsGet rev q.1 = some ps ∧
      ps ≠ [] ∧ q.2 = normalizeBlock q.1 raw ps := by
  induction entries generalizing bs with
  | nil =>
      have hbs : ([] : List (String × BlockData)) = bs := by injection h
      subst hbs
      intro q hq
      exact absurd hq (List.not_mem_nil q)
  | cons p rest ih =>
      obtain ⟨name, raw⟩ := p
      unfold normalizeBlocksPhase at h
      split at h
      · exact Except.noConfusion h
      · rename_i ps hg
        split at h
        · exact Except.noConfusion h
        · rename_i hps
          split at h
          · exact Except.noConfusion h
          · rename_i bs2 heq
            injection h with hbs
            subst hbs
            intro q hq
            rcases List.mem_cons.mp hq with hq1 | hmem
            · subst hq1
              refine ⟨raw, ps, List.mem_cons_self _ _, hg, ?_, rfl⟩
              intro hnil
              rw [hnil] at hps
              exact hps rfl
            · rcases ih bs2 heq q hmem with ⟨raw2, ps2, hmem2, hg2, hne2, he2⟩
              exact ⟨raw2, ps2, List.mem_cons_of_mem _ hmem2, hg2, hne2, he2⟩

theorem normalizeSuperblock_chapters_subset (name : String)
    (raw : RawSuperblock) (certs : List String) (b : String)
    (h : b ∈ (normalizeSuperblock name raw certs).chapters.flatMap
      (fun ch => ch.modules.flatMap (fun m => m.blocks))) :
    b ∈ (normalizeSuperblock name raw certs).blocks := by
  cases hch : raw.chapters with
  | some chs =>
      simp only [normalizeSuperblock, hch] at h ⊢
      exact h
  | none =>
      cases hb : raw.blocks <;> simp [normalizeSuperblock, hch, hb] at h

/-- C1: for every store successfully built by the pipeline, every block's
list of parent-superblock identifiers is non-empty and equals the list of
superblocks whose flattened block list contains it, in the order (and with
the multiplicity) discovered while building the reverse index; membership
of a superblock S in a block B's parent list is equivalent to S listing B
in the store, via its flattened block list or its chapters/modules
structure. -/
theorem c1_referential_closure (dataPath : String) (fs : FS)
    (store : DataStore)
    (h : initializeDataStore dataPath fs =
      PipelineOutcome.returned (Result.success store)) :
    ∀ q ∈ store.blocks,
      q.2.superblockDashedNames ≠ [] ∧
      q.2.superblockDashedNames = parentsList store.superblocks q.1 ∧
      (∀ S, S ∈ q.2.superblockDashedNames ↔
        ∃ p ∈ store.superblocks, p.1 = S ∧
          (q.1 ∈ p.2.blocks ∨
           q.1 ∈ p.2.chapters.flatMap
             (fun ch => ch.modules.flatMap (fun m => m.blocks)))) := by
  unfold initializeDataStore at h
  split at h
  · injection h with h'
    exact Result.noConfusion h'
  · rename_i lr hload
    split at h
    · injection h with h'
      exact Result.noConfusion h'
    · rename_i hval
      split at h
      · exact PipelineOutcome.noConfusion h
      · rename_i store2 hnb0
        injection h with h'
        injection h' with h''
        subst h''
        simp only [normalizeBuildPhase] at hnb0
        split at hnb0
        · exact Except.noConfusion hnb0
        · rename_i blocks hnb
          injection hnb0 with hstore
          subst hstore
          intro q hq
          simp only [buildDataStore] at hq ⊢
          obtain ⟨raw, ps, hmem, hg, hne, hq2⟩ :=
            normalizeBlocksPhase_ok _ _ _ hnb q hq
          have hsup : q.2.superblockDashedNames = ps := by
            rw [hq2]
            rfl
          rw [reverseIndex_get] at hg
          split at hg
          · exact Option.noConfusion hg
          · rename_i hpl
            injection hg with hps
            refine ⟨?_, ?_, ?_⟩
            · rw [hsup, ← hps]
              exact hpl
            · rw [hsup]
              exact hps.symm
            · intro S
              rw [hsup, ← hps]
              unfold parentsList
              rw [mem_parentsOfPairs, mem_forwardPairs]
              constructor
              · rintro ⟨p, hp, hS, hb⟩
                exact ⟨p, hp, hS, Or.inl hb⟩
              · rintro ⟨p, hp, hS, hb | hb⟩
                · exact ⟨p, hp, hS, hb⟩
                · rcases List.mem_map.mp hp with ⟨p0, hp0, hpeq⟩
                  subst hpeq
                  exact ⟨_, hp, hS,
                    normalizeSuperblock_chapters_subset _ _ _ _ hb⟩

/-- The store the pipeline builds on `fsC1`. -/
def storeC1 : DataStore :=
  ⟨⟨["sb-a", "sb-b"], ["sb-a"]⟩,
   [("sb-a", ⟨"sb-a", ["shared", "only-a"], [], true⟩),
    ("sb-b", ⟨"sb-b", ["shared"], [], false⟩)],
   [("shared", normalizeBlock "shared" (validRawBlock "shared")
      ["sb-a", "sb-b"]),
    ("only-a", normalizeBlock "only-a" (validRawBlock "only-a") ["sb-a"])],
   [("id-shared", ⟨"id-shared", "title-shared", "shared"⟩),
    ("id-only-a", ⟨"id-only-a", "title-only-a", "only-a"⟩)]⟩

/-- C1 witness: on the concrete sharing scenario, the block "shared" gets
both parents, in discovery order. -/
theorem c1_witness :
    (normalizeBlock "shared" (validRawBlock "shared")
      ["sb-a", "sb-b"]).superblockDashedNames ≠ [] ∧
    (normalizeBlock "shared" (validRawBlock "shared")
      ["sb-a", "sb-b"]).superblockDashedNames =
      parentsList storeC1.superblocks "shared" := by
  have h := c1_referential_closure "d" fsC1 storeC1 (by decide)
  have h2 := h ("shared", normalizeBlock "shared" (validRawBlock "shared")
    ["sb-a", "sb-b"]) (by decide)
  exact ⟨h2.1, h2.2.1⟩

end CurriculumDB
